import Mathlib

/-!
Verification development for the ORCA input-file parser
(`src/orca_lsp/parser.py`, keyword tables in `src/orca_lsp/keywords.py`).

The Python parser is shallowly embedded: each Python function becomes a
Lean definition of the same name (leading underscores dropped), Python
strings become `String`, Python lists become `List`, dataclasses become
structures, and the one uncaught exception the code can raise (a
`TypeError` from a dataclass constructor) is modelled by returning
`Except.error`.  Machine-level concerns do not arise: the parser only
uses strings, small integers and lists.  Atom coordinates are kept as
their source tokens because the parser never computes with them; only
the success or failure of Python's `float()` conversion is observable,
and that is modelled by `pyFloatOk`.
-/

/-! ## Python string primitives -/

/-- Characters stripped by Python's `str.strip()` (ASCII whitespace). -/
def isPyWs (c : Char) : Bool :=
  c = ' ' || c = '\t' || c = '\n' || c = '\r' || c = '\x0b' || c = '\x0c'

/-- Python `str.strip()` with no argument. -/
def pyStrip (s : String) : String :=
  String.mk (((s.data.dropWhile isPyWs).reverse.dropWhile isPyWs).reverse)

/-- ASCII lowering, as Python `str.lower()` acts on the characters used
by this code base (plus the one Greek letter appearing in keyword keys). -/
def pyCharLower (c : Char) : Char :=
  if c = 'Ω' then 'ω' else c.toLower

/-- ASCII raising, as Python `str.upper()` acts on the characters used
by this code base (plus the one Greek letter appearing in keyword keys). -/
def pyCharUpper (c : Char) : Char :=
  if c = 'ω' then 'Ω' else c.toUpper

/-- Python `str.lower()`. -/
def pyLower (s : String) : String := String.mk (s.data.map pyCharLower)

/-- Python `str.upper()`. -/
def pyUpper (s : String) : String := String.mk (s.data.map pyCharUpper)

/-- Python `str.startswith(p)`. -/
def pyStartsWith (s p : String) : Bool := p.data.isPrefixOf s.data

/-- Python `str.endswith(p)`. -/
def pyEndsWith (s p : String) : Bool := p.data.isSuffixOf s.data

/-- Worker for `containsSub`: does `nd` occur in `hay`? -/
def containsSubAux (hay nd : List Char) : Bool :=
  match hay with
  | [] => nd.isEmpty
  | _ :: t => nd.isPrefixOf hay || containsSubAux t nd

/-- Python substring test `nd in hay`. -/
def containsSub (hay nd : String) : Bool := containsSubAux hay.data nd.data

/-- Worker for `pySplitWs`: accumulates the current token reversed. -/
def splitWsGo : List Char → List Char → List String
  | [], acc => if acc.isEmpty then [] else [String.mk acc.reverse]
  | c :: cs, acc =>
    if isPyWs c then
      if acc.isEmpty then splitWsGo cs []
      else String.mk acc.reverse :: splitWsGo cs []
    else splitWsGo cs (c :: acc)

/-- Python `str.split()` with no argument: split on whitespace runs,
dropping empty tokens. -/
def pySplitWs (s : String) : List String := splitWsGo s.data []

/-- Worker for `pySplitLines`. -/
def splitLinesGo : List Char → List Char → List String
  | [], acc => [String.mk acc.reverse]
  | c :: cs, acc =>
    if c = '\n' then String.mk acc.reverse :: splitLinesGo cs []
    else splitLinesGo cs (c :: acc)

/-- Python `str.split(c)` for the newline separator: keeps empty pieces,
and the empty string yields `[""]`. -/
def pySplitLines (s : String) : List String := splitLinesGo s.data []

/-! ## Python numeric literal parsing -/

/-- Python decimal digit run with underscores allowed between digits
(the grammar accepted inside `int()` and `float()`). -/
def digitsOkRest : List Char → Bool
  | [] => true
  | '_' :: c :: cs => c.isDigit && digitsOkRest cs
  | '_' :: [] => false
  | c :: cs => c.isDigit && digitsOkRest cs

/-- Nonempty digit run, underscores only between digits. -/
def digitsOk : List Char → Bool
  | [] => false
  | c :: cs => c.isDigit && digitsOkRest cs

/-- Numeric value of a digit run, ignoring underscores. -/
def digitsVal (cs : List Char) : Nat :=
  cs.foldl (fun acc c => if c = '_' then acc else acc * 10 + (c.toNat - 48)) 0

/-- Python `int(s)` as an optional value: `none` models the `ValueError`
that the parser catches and ignores. -/
def pyInt (s : String) : Option Int :=
  match (pyStrip s).data with
  | '+' :: rest => if digitsOk rest then some (digitsVal rest : Int) else none
  | '-' :: rest => if digitsOk rest then some (-(digitsVal rest : Nat) : Int) else none
  | rest => if digitsOk rest then some (digitsVal rest : Int) else none

/-- Split a character list at the first occurrence of `c`. -/
def splitFirst (c : Char) : List Char → Option (List Char × List Char)
  | [] => none
  | x :: xs =>
    if x = c then some ([], xs)
    else match splitFirst c xs with
      | some (a, b) => some (x :: a, b)
      | none => none

/-- Exponent part of a Python float literal: optional sign then digits. -/
def floatExpOk (cs : List Char) : Bool :=
  match cs with
  | '+' :: rest => digitsOk rest
  | '-' :: rest => digitsOk rest
  | rest => digitsOk rest

/-- Mantissa of a Python float literal: digits, with at most one dot,
at least one digit overall. -/
def floatMantissaOk (cs : List Char) : Bool :=
  match splitFirst '.' cs with
  | none => digitsOk cs
  | some (a, b) =>
    (a.isEmpty || digitsOk a) && (b.isEmpty || digitsOk b) &&
      !(a.isEmpty && b.isEmpty) && !(b.contains '.')

/-- Body of a Python float literal after sign removal. -/
def floatBodyOk (cs : List Char) : Bool :=
  if cs = "inf".data || cs = "infinity".data || cs = "nan".data then true
  else match splitFirst 'e' cs with
    | none => floatMantissaOk cs
    | some (m, e) => floatMantissaOk m && floatExpOk e

/-- Success of Python `float(s)`: `false` models the `ValueError` that
`parse_geometry` catches when an atom coordinate is malformed. -/
def pyFloatOk (s : String) : Bool :=
  match (pyLower (pyStrip s)).data with
  | '+' :: rest => floatBodyOk rest
  | '-' :: rest => floatBodyOk rest
  | rest => floatBodyOk rest

/-! ## Keyword registry (`keywords.py`)

The parser only ever consults the key sets of the registry dictionaries,
so the registries are embedded as their lists of canonical keys, in
source order. -/

/-- Keys of `DFT_FUNCTIONALS` in `keywords.py`. -/
def DFT_FUNCTIONALS : List String :=
  ["B3LYP", "PBE0", "TPSS0", "M06", "M06-2X", "M06L", "M06-HF",
   "ωB97X-D", "ωB97X-V", "B97-D", "B97-D3", "B2PLYP", "DSD-BLYP",
   "PBE", "BP86", "BLYP", "TPSS", "B97", "revPBE", "RPBE", "OLYP"]

/-- Keys of `WAVEFUNCTION_METHODS` in `keywords.py`. -/
def WAVEFUNCTION_METHODS : List String :=
  ["HF", "RHF", "UHF", "ROHF", "MP2", "RI-MP2", "SCS-MP2", "MP3",
   "CCSD", "CCSD(T)", "DLPNO-CCSD", "DLPNO-CCSD(T)", "CASSCF",
   "NEVPT2", "CASPT2", "MRPT"]

/-- Keys of `BASIS_SETS` in `keywords.py`. -/
def BASIS_SETS : List String :=
  ["STO-3G", "3-21G", "6-31G", "6-31G*", "6-31G**", "6-31+G*",
   "6-311G", "6-311G*", "6-311G**", "6-311+G*", "6-311++G**",
   "def2-SVP", "def2-TZVP", "def2-TZVPP", "def2-QZVP", "def2-QZVPP",
   "def2-SVPD", "def2-TZVPD",
   "cc-pVDZ", "cc-pVTZ", "cc-pVQZ", "cc-pV5Z",
   "aug-cc-pVDZ", "aug-cc-pVTZ", "aug-cc-pVQZ",
   "def2/J", "def2-TZVP/C", "def2-QZVP/C", "cc-pVTZ-f12-optri"]

/-- Keys of `JOB_TYPES` in `keywords.py`. -/
def JOB_TYPES : List String :=
  ["SP", "OPT", "FREQ", "NUMFREQ", "OPT FREQ", "TS", "IRC", "SCAN",
   "MD", "MOLECULAR DYNAMICS"]

/-- `self.all_methods = self.dft_functionals | self.wavefunction_methods`.
Python set union has no specified order; the parser only uses membership
and a first-match search, and no two keys collide case-insensitively, so
list concatenation is an order-faithful model. -/
def ALL_METHODS : List String := DFT_FUNCTIONALS ++ WAVEFUNCTION_METHODS

/-- `ELEMENTS` in `keywords.py`: the 86 element symbols H through Rn. -/
def ELEMENTS : List String :=
  ["H", "He", "Li", "Be", "B", "C", "N", "O", "F", "Ne",
   "Na", "Mg", "Al", "Si", "P", "S", "Cl", "Ar", "K", "Ca",
   "Sc", "Ti", "V", "Cr", "Mn", "Fe", "Co", "Ni", "Cu", "Zn",
   "Ga", "Ge", "As", "Se", "Br", "Kr", "Rb", "Sr", "Y", "Zr",
   "Nb", "Mo", "Tc", "Ru", "Rh", "Pd", "Ag", "Cd", "In", "Sn",
   "Sb", "Te", "I", "Xe", "Cs", "Ba", "La", "Ce", "Pr", "Nd",
   "Pm", "Sm", "Eu", "Gd", "Tb", "Dy", "Ho", "Er", "Tm", "Yb",
   "Lu", "Hf", "Ta", "W", "Re", "Os", "Ir", "Pt", "Au", "Hg",
   "Tl", "Pb", "Bi", "Po", "At", "Rn"]

/-! ## Data model (`parser.py` dataclasses) -/

/-- Dataclass `SimpleInput`.  Its fields are exactly the five below; in
particular there is no `line_number` field, which is what makes the
constructor call in `parse_simple_input` raise a `TypeError`. -/
structure SimpleInput where
  methods : List String := []
  basis_sets : List String := []
  job_types : List String := []
  other_keywords : List String := []
  raw : String := ""
deriving DecidableEq, Repr

/-- The field names of the `SimpleInput` dataclass, in declaration
order.  A keyword argument outside this list raises `TypeError`. -/
def SimpleInputFields : List String :=
  ["methods", "basis_sets", "job_types", "other_keywords", "raw"]

/-- `SimpleInput.is_valid`. -/
def simpleInputIsValid (si : SimpleInput) : Bool :=
  si.methods.length > 0 || si.basis_sets.length > 0

/-- The parameter dictionary of a `PercentBlock`.  The Python code only
ever stores the four keys below, so the string-keyed dictionary is
modelled as a structure of optional fields. -/
structure Params where
  memory : Option Int := none
  nprocs : Option Nat := none
  dispersion : Option String := none
  maxiter : Option Nat := none
deriving DecidableEq, Repr

/-- Dataclass `PercentBlock`. -/
structure PercentBlock where
  name : String := ""
  parameters : Params := {}
  raw_content : String := ""
  line_start : Nat := 0
  line_end : Nat := 0
deriving DecidableEq, Repr

/-- Dataclass `Atom`.  The coordinates are kept as their source tokens:
the parser never computes with them, it only requires Python `float()`
to succeed on each (modelled by `pyFloatOk` in `parse_geometry`). -/
structure Atom where
  element : String := ""
  x : String := "0.0"
  y : String := "0.0"
  z : String := "0.0"
  line_number : Nat := 0
deriving DecidableEq, Repr

/-- `Atom.is_valid`: exact, case-sensitive membership in `ELEMENTS`. -/
def atomIsValid (a : Atom) : Bool := ELEMENTS.contains a.element

/-- Dataclass `Geometry`. -/
structure Geometry where
  charge : Int := 0
  multiplicity : Int := 1
  atoms : List Atom := []
  format_type : String := "xyz"
  line_start : Nat := 0
  line_end : Nat := 0
deriving DecidableEq, Repr

/-- `Geometry.is_valid`. -/
def geometryIsValid (g : Geometry) : Bool :=
  g.atoms.length > 0 && g.atoms.all atomIsValid

/-- A diagnostic finding: one entry of `result.errors` or
`result.warnings` (a Python dict with keys message/line/severity). -/
structure Finding where
  message : String
  line : Nat
  severity : String
deriving DecidableEq, Repr

/-- Dataclass `ParseResult`. -/
structure ParseResult where
  simple_input : Option SimpleInput := none
  percent_blocks : List PercentBlock := []
  geometry : Option Geometry := none
  errors : List Finding := []
  warnings : List Finding := []
deriving DecidableEq, Repr

/-- The one uncaught exception the parser can raise. -/
inductive PyErr where
  | typeError (msg : String)
deriving DecidableEq, Repr

/-- The `TypeError` raised by `SimpleInput(raw=line, line_number=...)`
in `parse_simple_input` (line 138 of `parser.py`): the dataclass has no
`line_number` field. -/
def simpleInputTypeErr : PyErr :=
  PyErr.typeError "SimpleInput.init got an unexpected keyword argument line_number"

/-! ## Simple input parsing (`ORCAParser.parse_simple_input`) -/

/-- Loop body of `parse_simple_input` (lines 144-174 of `parser.py`):
classify one token against the registry.  An exact match of the
uppercased token against a canonical key appends the token as written;
only the fallback case-insensitive search appends the canonical key. -/
def classifyToken (si : SimpleInput) (token : String) : SimpleInput :=
  let tU := pyUpper token
  if DFT_FUNCTIONALS.contains tU then
    { si with methods := si.methods ++ [token] }
  else if WAVEFUNCTION_METHODS.contains tU then
    { si with methods := si.methods ++ [token] }
  else if BASIS_SETS.contains tU then
    { si with basis_sets := si.basis_sets ++ [token] }
  else if JOB_TYPES.contains tU then
    { si with job_types := si.job_types ++ [token] }
  else if (ALL_METHODS.map pyUpper).contains tU then
    match ALL_METHODS.find? (fun m => pyUpper m == tU) with
    | some m => { si with methods := si.methods ++ [m] }
    | none => si
  else if (BASIS_SETS.map pyUpper).contains tU then
    match BASIS_SETS.find? (fun b => pyUpper b == tU) with
    | some b => { si with basis_sets := si.basis_sets ++ [b] }
    | none => si
  else if (JOB_TYPES.map pyUpper).contains tU then
    match JOB_TYPES.find? (fun j => pyUpper j == tU) with
    | some j => { si with job_types := si.job_types ++ [j] }
    | none => si
  else
    { si with other_keywords := si.other_keywords ++ [token] }

/-- `ORCAParser.parse_simple_input`.  Its first statement constructs
`SimpleInput(raw=line, line_number=line_number)`; since `line_number`
is not a field of the dataclass, Python raises `TypeError` before the
tokenization loop is reached.  The `then` branch embeds the remainder
of the function (lines 140-176), which is reachable only if
`line_number` were a dataclass field. -/
def parse_simple_input (line : String) (_line_number : Nat) : Except PyErr SimpleInput :=
  if SimpleInputFields.contains "line_number" then
    let content := pyStrip (line.drop 1)
    let tokens := pySplitWs content
    Except.ok (tokens.foldl classifyToken { raw := line })
  else
    Except.error simpleInputTypeErr

/-! ## Settings blocks (`ORCAParser.parse_percent_block` and
`ORCAParser._parse_block_parameters`) -/

/-- The block-name pattern of line 185 of `parser.py`: regex
`%\s*(\w+)` anchored at the start of the stripped first line; the
captured identifier is lowercased.  `\w` is modelled over ASCII. -/
def isWordChar (c : Char) : Bool := c.isAlphanum || c = '_'

/-- Extract and lowercase the block name, or fail as `re.match` does. -/
def extractBlockName (s : String) : Option String :=
  match s.data with
  | '%' :: rest =>
    let word := (rest.dropWhile isPyWs).takeWhile isWordChar
    if word.isEmpty then none else some (pyLower (String.mk word))
  | _ => none

/-- Search a character list for `key` followed by at least one
whitespace character and a digit run, returning the digit run's value:
the behaviour of `re.search(key + whitespace + digits)` used for the
`pal` and `scf` blocks. -/
def searchKeyNum (cs key : List Char) : Option Nat :=
  match cs with
  | [] => none
  | _ :: t =>
    if key.isPrefixOf cs then
      let rest := cs.drop key.length
      let ws := rest.takeWhile isPyWs
      let ds := (rest.drop ws.length).takeWhile Char.isDigit
      if !ws.isEmpty && !ds.isEmpty then some (digitsVal ds)
      else searchKeyNum t key
    else searchKeyNum t key

/-- One line of the `%maxcore` extraction: `%maxcore <int>`, with a
caught `ValueError` leaving the previous value in place. -/
def maxcoreLineUpdate (p : Params) (line : String) : Params :=
  let parts := pySplitWs line
  if parts.length ≥ 2 && pyLower (parts.getD 0 "") == "%maxcore" then
    match pyInt (parts.getD 1 "") with
    | some v => { p with memory := some v }
    | none => p
  else p

/-- One line of the `%pal` extraction: case-insensitive search for
`nprocs` followed by whitespace and digits. -/
def palLineUpdate (p : Params) (line : String) : Params :=
  if containsSub (pyLower line) "nprocs" then
    match searchKeyNum (pyLower line).data "nprocs".data with
    | some v => { p with nprocs := some v }
    | none => p
  else p

/-- One line of the `%method` extraction (lines 242-249 of `parser.py`):
the stripped, lowercased line is tested for the substrings `d3bj`,
`d3`, `d4` in that order; a match overwrites the dispersion value, a
non-matching line leaves it unchanged.  Every line of the block is
visited, so a later matching line overwrites an earlier one. -/
def methodDispersionUpdate (d : Option String) (line : String) : Option String :=
  let s := pyLower (pyStrip line)
  if containsSub s "d3bj" then some "D3BJ"
  else if containsSub s "d3" then some "D3"
  else if containsSub s "d4" then some "D4"
  else d

/-- One line of the `%scf` extraction: search the stripped, lowercased
line for `maxiter` followed by whitespace and digits. -/
def scfLineUpdate (p : Params) (line : String) : Params :=
  let s := pyLower (pyStrip line)
  if containsSub s "maxiter" then
    match searchKeyNum s.data "maxiter".data with
    | some v => { p with maxiter := some v }
    | none => p
  else p

/-- `ORCAParser._parse_block_parameters`: dispatch on the block name and
fold the per-line extraction over the lines of the raw content.  Block
names without bespoke logic yield an empty parameter mapping. -/
def parse_block_parameters (name : String) (content : String) : Params :=
  let ls := pySplitLines content
  if name == "maxcore" then ls.foldl maxcoreLineUpdate {}
  else if name == "pal" then ls.foldl palLineUpdate {}
  else if name == "method" then
    { dispersion := ls.foldl methodDispersionUpdate none }
  else if name == "scf" then ls.foldl scfLineUpdate {}
  else {}

/-- The multi-line consumption loop of `parse_percent_block` (lines
200-208 of `parser.py`), over the lines after the opening one: each
line is appended to the content, and a line whose stripped, lowercased
text is exactly `end` stops the loop.  Returns the consumed lines and
the offset of the final loop index from the first consumed line (the
index of the `end` line if found, one past the last line otherwise). -/
def collectUntilEnd : List String → List String × Nat
  | [] => ([], 0)
  | l :: rest =>
    if pyLower (pyStrip l) == "end" then ([l], 0)
    else
      let (cs, k) := collectUntilEnd rest
      (l :: cs, k + 1)

/-- `ORCAParser.parse_percent_block`.  Returns the block (or `none` when
no name can be extracted) and the final line index, whose successor is
where the enclosing scan resumes.  A single-line block (opening line
containing `end`) keeps the dataclass default `line_end = 0`. -/
def parse_percent_block (lines : List String) (start_line : Nat) :
    Option PercentBlock × Nat :=
  let first_line := pyStrip (lines.getD start_line "")
  match extractBlockName first_line with
  | none => (none, start_line)
  | some nm =>
    if containsSub (pyLower first_line) "end" || pyEndsWith (pyLower first_line) "end" then
      (some { name := nm, parameters := parse_block_parameters nm first_line,
              raw_content := first_line, line_start := start_line, line_end := 0 },
       start_line)
    else
      let (cs, k) := collectUntilEnd (lines.drop (start_line + 1))
      let iEnd := start_line + 1 + k
      let raw := String.intercalate "\n" (first_line :: cs)
      (some { name := nm, parameters := parse_block_parameters nm raw,
              raw_content := raw, line_start := start_line, line_end := iEnd },
       iEnd)

/-! ## Geometry (`ORCAParser.parse_geometry`) -/

/-- Charge and multiplicity from the header tokens (lines 277-282 of
`parser.py`).  Python assigns `charge` before attempting
`multiplicity`, and the shared `except ValueError: pass` means a
failure on token 3 keeps the charge already assigned from token 2. -/
def geomChargeMult (parts : List String) : Int × Int :=
  if parts.length ≥ 4 then
    match pyInt (parts.getD 2 "") with
    | none => (0, 1)
    | some c =>
      match pyInt (parts.getD 3 "") with
      | none => (c, 1)
      | some m => (c, m)
  else (0, 1)

/-- The atom loop of `parse_geometry` (lines 285-309 of `parser.py`)
over the lines after the header, carrying the absolute line index.
Returns the collected atoms, the index of the terminating `*` line when
one is found, and the final loop index. -/
def collectAtoms : List String → Nat → List Atom × Option Nat × Nat
  | [], i => ([], none, i)
  | l :: rest, i =>
    let s := pyStrip l
    if s == "*" then ([], some i, i)
    else
      let parts := pySplitWs s
      let (atoms, stop, fin) := collectAtoms rest (i + 1)
      if parts.length ≥ 4 && pyFloatOk (parts.getD 1 "") &&
          pyFloatOk (parts.getD 2 "") && pyFloatOk (parts.getD 3 "") then
        ({ element := parts.getD 0 "", x := parts.getD 1 "", y := parts.getD 2 "",
           z := parts.getD 3 "", line_number := i } :: atoms, stop, fin)
      else (atoms, stop, fin)

/-- `ORCAParser.parse_geometry`.  Returns the geometry (or `none` when
the header has fewer than two tokens) and the scan-resumption index
`geom.line_end if geom.line_end > 0 else i`.  When the terminating `*`
is never found, `line_end` keeps the dataclass default `0`. -/
def parse_geometry (lines : List String) (start_line : Nat) :
    Option Geometry × Nat :=
  let first_line := pyStrip (lines.getD start_line "")
  let parts := pySplitWs first_line
  if parts.length < 2 then (none, start_line)
  else
    let fmt := pyLower (parts.getD 1 "")
    let cm := geomChargeMult parts
    let (atoms, stop, fin) := collectAtoms (lines.drop (start_line + 1)) (start_line + 1)
    let le := stop.getD 0
    let geom : Geometry :=
      { charge := cm.1, multiplicity := cm.2, atoms := atoms,
        format_type := fmt, line_start := start_line, line_end := le }
    (some geom, if le > 0 then le else fin)

/-! ## Diagnostics (`ORCAParser._run_diagnostics`) -/

/-- Finding for a missing simple-input line. -/
def missingSimpleInputFinding : Finding :=
  { message := "Missing simple input line (!) with method and basis set",
    line := 0, severity := "error" }

/-- Finding for a directive without a method.  The source tries
`result.simple_input.line_number` guarded by `hasattr`, and since the
dataclass has no such field the guard always falls back to line 0. -/
def noMethodFinding : Finding :=
  { message := "No method specified in simple input (e.g., B3LYP, HF, MP2)",
    line := 0, severity := "error" }

/-- Finding for a directive without a basis set (line 0 for the same
`hasattr` reason as `noMethodFinding`). -/
def noBasisFinding : Finding :=
  { message := "No basis set specified in simple input (e.g., def2-TZVP, 6-31G*)",
    line := 0, severity := "error" }

/-- Finding for a missing geometry section. -/
def missingGeometryFinding : Finding :=
  { message := "Missing geometry section (* xyz charge multiplicity ...)",
    line := 0, severity := "error" }

/-- Finding for an invalid element symbol, at the atom's line. -/
def elemErrFinding (a : Atom) : Finding :=
  { message := "Invalid element symbol: " ++ a.element,
    line := a.line_number, severity := "error" }

/-- Finding recommending a `%maxcore` setting. -/
def maxcoreWarningFinding : Finding :=
  { message := "Missing %maxcore setting. Recommended: %maxcore 2000-4000 (MB per core)",
    line := 0, severity := "warning" }

/-- `ORCAParser._run_diagnostics`: append the structural findings to the
result, in the fixed source order. -/
def run_diagnostics (r : ParseResult) : ParseResult :=
  let errs1 :=
    match r.simple_input with
    | none => [missingSimpleInputFinding]
    | some si =>
      (if si.methods.isEmpty then [noMethodFinding] else []) ++
      (if si.basis_sets.isEmpty then [noBasisFinding] else [])
  let errs2 :=
    match r.geometry with
    | none => [missingGeometryFinding]
    | some g => (g.atoms.filter (fun a => !atomIsValid a)).map elemErrFinding
  let warns :=
    if r.percent_blocks.any (fun b => b.name == "maxcore") then []
    else [maxcoreWarningFinding]
  { r with errors := r.errors ++ errs1 ++ errs2,
           warnings := r.warnings ++ warns }

/-! ## Top-level scan (`ORCAParser.parse`) -/

/-- The `while` loop of `ORCAParser.parse` (lines 97-129 of
`parser.py`), embedded with a fuel argument so that the recursion is
structural.  Every iteration advances the line index by at least one
(the source guarantees that the indices returned by
`parse_percent_block` and `parse_geometry` are at least the current
one; the `max` with `i + 1` makes that syntactic without changing the
value), so with fuel `lines.length + 1` the fuel never runs out and
the zero-fuel branch is unreachable.  A `!` line calls
`parse_simple_input`, whose `TypeError` propagates out of the loop. -/
def parseLoop (lines : List String) : Nat → Nat → ParseResult → Except PyErr ParseResult
  | 0, _, r => Except.ok r
  | fuel + 1, i, r =>
    if i < lines.length then
      let s := pyStrip (lines.getD i "")
      if s == "" || pyStartsWith s "#" then
        parseLoop lines fuel (i + 1) r
      else if pyStartsWith s "!" then
        match parse_simple_input s i with
        | Except.error e => Except.error e
        | Except.ok si => parseLoop lines fuel (i + 1) { r with simple_input := some si }
      else if pyStartsWith s "%" then
        let (blk, e) := parse_percent_block lines i
        let r' :=
          match blk with
          | some b => { r with percent_blocks := r.percent_blocks ++ [b] }
          | none => r
        parseLoop lines fuel (max (e + 1) (i + 1)) r'
      else if pyStartsWith s "*" then
        let (g, e) := parse_geometry lines i
        let r' :=
          match g with
          | some geom => { r with geometry := some geom }
          | none => r
        parseLoop lines fuel (max (e + 1) (i + 1)) r'
      else
        parseLoop lines fuel (i + 1) r
    else
      Except.ok r

/-- `ORCAParser.parse`: split the content on newlines, run the scan
from line 0 on a fresh `ParseResult`, then run the diagnostics.  The
`TypeError` raised on any reached `!` line propagates. -/
def parse (content : String) : Except PyErr ParseResult :=
  let ls := pySplitLines content
  match parseLoop ls (ls.length + 1) 0 {} with
  | Except.error e => Except.error e
  | Except.ok r => Except.ok (run_diagnostics r)

/-! ## Shared lemmas -/

theorem pyStartsWith_head {s : String} {c : Char} (h : pyStartsWith s ⟨[c]⟩ = true) :
    ∃ t, s.data = c :: t := by
  unfold pyStartsWith at h
  cases hd : s.data with
  | nil => rw [hd] at h; simp [List.isPrefixOf] at h
  | cons a t =>
    rw [hd] at h
    have hca : (c == a) = true := by simpa [List.isPrefixOf] using h
    exact ⟨t, by rw [eq_of_beq hca]⟩

theorem pyStartsWith_excl {s : String} {c d : Char} (hcd : c ≠ d)
    (h : pyStartsWith s ⟨[c]⟩ = true) : pyStartsWith s ⟨[d]⟩ = false := by
  obtain ⟨t, ht⟩ := pyStartsWith_head h
  unfold pyStartsWith
  rw [ht]
  simp [List.isPrefixOf]
  exact fun hd => absurd hd.symm hcd

theorem pyStartsWith_ne_empty {s : String} {c : Char}
    (h : pyStartsWith s ⟨[c]⟩ = true) : (s == "") = false := by
  obtain ⟨t, ht⟩ := pyStartsWith_head h
  have hne : s ≠ "" := fun he => by rw [he] at ht; exact List.noConfusion ht
  simp [hne]

example (s : String) (h : pyStartsWith s "!" = true) : pyStartsWith s "#" = false :=
  pyStartsWith_excl (by decide) h

example (s : String) (h : pyStartsWith s "!" = true) : (s == "") = false :=
  pyStartsWith_ne_empty h

theorem parseLoop_done (ls : List String) (fuel i : Nat) (r : ParseResult)
    (h : ls.length ≤ i) : parseLoop ls fuel i r = Except.ok r := by
  cases fuel with
  | zero => rfl
  | succ n => simp only [parseLoop]; rw [if_neg (by omega)]

theorem parseLoop_ok_inv (ls : List String) :
    ∀ (fuel i : Nat) (r r' : ParseResult), parseLoop ls fuel i r = Except.ok r' →
      r'.simple_input = r.simple_input ∧ r'.errors = r.errors ∧ r'.warnings = r.warnings := by
  intro fuel
  induction fuel with
  | zero =>
    intro i r r' h
    simp only [parseLoop] at h
    cases h
    exact ⟨rfl, rfl, rfl⟩
  | succ n ih =>
    intro i r r' h
    simp only [parseLoop] at h
    by_cases hi : i < ls.length
    · rw [if_pos hi] at h
      set s := pyStrip (ls.getD i "") with hs
      by_cases h1 : (s == "" || pyStartsWith s "#") = true
      · rw [if_pos h1] at h
        exact ih _ _ _ h
      · rw [if_neg h1] at h
        by_cases h2 : pyStartsWith s "!" = true
        · rw [if_pos h2] at h
          have : parse_simple_input s i = Except.error simpleInputTypeErr := rfl
          rw [this] at h
          exact Except.noConfusion h
        · rw [if_neg h2] at h
          by_cases h3 : pyStartsWith s "%" = true
          · rw [if_pos h3] at h
            rcases hpb : parse_percent_block ls i with ⟨blk, e⟩
            rw [hpb] at h
            cases blk with
            | none =>
              simp only at h
              exact ih _ _ _ h
            | some b =>
              simp only at h
              obtain ⟨a1, a2, a3⟩ := ih _ _ _ h
              exact ⟨a1, a2, a3⟩
          · rw [if_neg h3] at h
            by_cases h4 : pyStartsWith s "*" = true
            · rw [if_pos h4] at h
              rcases hpg : parse_geometry ls i with ⟨g, e⟩
              rw [hpg] at h
              cases g with
              | none =>
                simp only at h
                exact ih _ _ _ h
              | some geom =>
                simp only at h
                obtain ⟨a1, a2, a3⟩ := ih _ _ _ h
                exact ⟨a1, a2, a3⟩
            · rw [if_neg h4] at h
              exact ih _ _ _ h
    · rw [if_neg hi] at h
      cases h
      exact ⟨rfl, rfl, rfl⟩

theorem parseLoop_bang (ls : List String) :
    ∀ (fuel i j : Nat) (r : ParseResult), i ≤ j → j < ls.length → j - i < fuel →
      (∀ k, i ≤ k → k < j →
        ((pyStrip (ls.getD k "") == "") || pyStartsWith (pyStrip (ls.getD k "")) "#") = true) →
      pyStartsWith (pyStrip (ls.getD j "")) "!" = true →
      parseLoop ls fuel i r = Except.error simpleInputTypeErr := by
  intro fuel
  induction fuel with
  | zero => intro i j r h1 h2 h3 _ _; omega
  | succ n ih =>
    intro i j r hij hj hfuel hskip hbang
    simp only [parseLoop]
    rw [if_pos (by omega)]
    by_cases hij' : i = j
    · subst hij'
      rw [if_neg, if_pos hbang]
      · have : parse_simple_input (pyStrip (ls.getD i "")) i = Except.error simpleInputTypeErr := rfl
        rw [this]
      · have e1 : (pyStrip (ls.getD i "") == "") = false := pyStartsWith_ne_empty hbang
        have e2 : pyStartsWith (pyStrip (ls.getD i "")) "#" = false :=
          pyStartsWith_excl (c := '!') (d := '#') (by decide) hbang
        simp only [e1, e2, Bool.or_false]
        exact Bool.false_ne_true
    · have hik : i < j := by omega
      rw [if_pos (hskip i (le_refl i) hik)]
      exact ih (i + 1) j r (by omega) hj (by omega) (fun k hk1 hk2 => hskip k (by omega) hk2) hbang

theorem parse_ok_elim (content : String) (r : ParseResult) (h : parse content = Except.ok r) :
    ∃ r0 : ParseResult,
      parseLoop (pySplitLines content) ((pySplitLines content).length + 1) 0 {} = Except.ok r0 ∧
      r = run_diagnostics r0 ∧ r0.simple_input = none ∧ r0.errors = [] ∧ r0.warnings = [] := by
  unfold parse at h
  dsimp only [] at h
  rcases hr : parseLoop (pySplitLines content) ((pySplitLines content).length + 1) 0 {} with e | r0
  · rw [hr] at h; exact Except.noConfusion h
  · rw [hr] at h
    obtain ⟨a1, a2, a3⟩ := parseLoop_ok_inv _ _ _ _ _ hr
    cases h
    exact ⟨r0, rfl, rfl, a1, a2, a3⟩

/-! ## Claim C1 -/

/-- C1: the specification states that `parse` terminates and returns a
well-formed ParseResult for every input, never raising, in particular
for documents containing a `!` simple-input line.  The code does the
opposite for any document whose scan reaches a `!` line: evaluated at
the failing input `"! B3LYP def2-SVP"`, `parse` propagates the
`TypeError` raised by `SimpleInput(raw=..., line_number=...)` because
the dataclass has no `line_number` field. -/
theorem c1_parse_raises_on_simple_input_line :
    parse "! B3LYP def2-SVP" = Except.error simpleInputTypeErr := by rfl

/-! ## Claim C2 -/

/-- C2, counterexample: for the line `"! b3lyp DEF2-SVP"` the claim
asserts a resulting directive whose method list contains the canonical
spelling `"B3LYP"` and whose basis-set list contains `"def2-SVP"`.  No
such directive exists: `parse_simple_input` fails before classifying a
single token. -/
theorem c2_counterexample :
    ¬ ∃ si : SimpleInput, parse_simple_input "! b3lyp DEF2-SVP" 0 = Except.ok si ∧
      "B3LYP" ∈ si.methods ∧ "def2-SVP" ∈ si.basis_sets := by
  rintro ⟨si, h, -, -⟩
  have he : parse_simple_input "! b3lyp DEF2-SVP" 0 = Except.error simpleInputTypeErr := rfl
  rw [he] at h
  exact Except.noConfusion h

/-- C2, amended: for every `!` line and line number,
`parse_simple_input` raises a `TypeError` — `SimpleInput` is
constructed with the unexpected keyword argument `line_number` — so no
directive (and hence no method or basis-set list in any casing) is
ever produced. -/
theorem c2_amended_simple_input_always_raises (line : String) (n : Nat) :
    parse_simple_input line n = Except.error simpleInputTypeErr := rfl

/-- Witness for the amended C2, at a concrete method/basis line. -/
theorem c2_amended_simple_input_always_raises_witness :
    parse_simple_input "! b3lyp DEF2-SVP" 0 = Except.error simpleInputTypeErr :=
  c2_amended_simple_input_always_raises "! b3lyp DEF2-SVP" 0

/-! ## Claim C3 -/

/-- C3, counterexample: for the document `"! HF 6-31G*\n! MP2 cc-pVTZ"`
with two `!` lines, the claim asserts a ParseResult holding exactly one
directive, built from the first `!` line.  In fact `parse` raises on
the first `!` line and returns no ParseResult at all. -/
theorem c3_counterexample :
    ¬ ∃ (r : ParseResult) (si : SimpleInput),
      parse "! HF 6-31G*\n! MP2 cc-pVTZ" = Except.ok r ∧ r.simple_input = some si := by
  rintro ⟨r, si, h, -⟩
  have he : parse "! HF 6-31G*\n! MP2 cc-pVTZ" = Except.error simpleInputTypeErr := rfl
  rw [he] at h
  exact Except.noConfusion h

/-- C3, amended: for every document whose forward scan reaches a `!`
line — here, any document whose first line that is neither blank nor a
`#` comment starts with `!`, which covers every document whose `!`
lines lead the document, two or more included — `parse` raises the
constructor `TypeError` at that first `!` line and returns no
ParseResult, so no directive from any `!` line is ever stored. -/
theorem c3_amended_first_bang_raises (content : String) (j : Nat)
    (hj : j < (pySplitLines content).length)
    (hskip : ∀ k, k < j →
      ((pyStrip ((pySplitLines content).getD k "") == "") ||
        pyStartsWith (pyStrip ((pySplitLines content).getD k "")) "#") = true)
    (hbang : pyStartsWith (pyStrip ((pySplitLines content).getD j "")) "!" = true) :
    parse content = Except.error simpleInputTypeErr := by
  unfold parse
  dsimp only []
  rw [parseLoop_bang (pySplitLines content) ((pySplitLines content).length + 1) 0 j _
    (Nat.zero_le j) hj (by omega) (fun k _ hk2 => hskip k hk2) hbang]

/-- Witness for the amended C3, at the two-directive document
`"! HF 6-31G*\n! MP2 cc-pVTZ"` with the `!` line at index 0. -/
theorem c3_amended_first_bang_raises_witness :
    parse "! HF 6-31G*\n! MP2 cc-pVTZ" = Except.error simpleInputTypeErr :=
  c3_amended_first_bang_raises "! HF 6-31G*\n! MP2 cc-pVTZ" 0 (by decide)
    (fun k hk => absurd hk (Nat.not_lt_zero k)) (by decide)

/-! ## Claim C7 -/

/-- C7: parsing the empty string yields no directive, no geometry, no
settings blocks, and exactly the two structural-absence errors at line
0 (plus the maxcore warning, which the claim does not mention). -/
theorem c7_parse_empty :
    parse "" = Except.ok
      { simple_input := none, percent_blocks := [], geometry := none,
        errors := [missingSimpleInputFinding, missingGeometryFinding],
        warnings := [maxcoreWarningFinding] } := by rfl

/-! ## Claim C9 -/

/-- C9: a settings block whose opening line contains the substring
`end` (case-insensitively) is returned as complete on that single line
(the scan resumes right after it), and its recorded `line_end` keeps
the dataclass default 0 regardless of the opening line's index, so for
any such block starting past line 0 the stored end line is strictly
below the stored start line. -/
theorem c9_single_line_block (ls : List String) (i : Nat) (nm : String)
    (hname : extractBlockName (pyStrip (ls.getD i "")) = some nm)
    (hend : containsSub (pyLower (pyStrip (ls.getD i ""))) "end" = true) :
    ∃ b : PercentBlock, parse_percent_block ls i = (some b, i) ∧
      b.line_end = 0 ∧ b.line_start = i ∧ (0 < i → b.line_end < b.line_start) := by
  unfold parse_percent_block
  dsimp only []
  rw [hname]
  dsimp only []
  rw [if_pos (by rw [hend]; rfl)]
  exact ⟨_, rfl, rfl, rfl, fun h => h⟩

theorem c9_witness :
    ∃ b : PercentBlock, parse_percent_block ["x", "%pal nprocs 4 end"] 1 = (some b, 1) ∧
      b.line_end = 0 ∧ b.line_start = 1 ∧ (0 < 1 → b.line_end < b.line_start) :=
  c9_single_line_block ["x", "%pal nprocs 4 end"] 1 "pal" (by decide) (by decide)

/-! ## Claim C5 -/

theorem methodDispersionUpdate_of_none (d : Option String) (p : String)
    (hp : methodDispersionUpdate none p = none) :
    methodDispersionUpdate d p = d := by
  unfold methodDispersionUpdate at *
  by_cases h1 : containsSub (pyLower (pyStrip p)) "d3bj" = true
  · rw [if_pos h1] at hp; exact Option.noConfusion hp
  · rw [if_neg h1] at hp ⊢
    by_cases h2 : containsSub (pyLower (pyStrip p)) "d3" = true
    · rw [if_pos h2] at hp; exact Option.noConfusion hp
    · rw [if_neg h2] at hp ⊢
      by_cases h3 : containsSub (pyLower (pyStrip p)) "d4" = true
      · rw [if_pos h3] at hp; exact Option.noConfusion hp
      · rw [if_neg h3]

theorem methodDispersionUpdate_of_some (d : Option String) (p : String) (v : String)
    (hp : methodDispersionUpdate none p = some v) :
    methodDispersionUpdate d p = some v := by
  unfold methodDispersionUpdate at *
  by_cases h1 : containsSub (pyLower (pyStrip p)) "d3bj" = true
  · rw [if_pos h1] at hp ⊢; exact hp
  · rw [if_neg h1] at hp ⊢
    by_cases h2 : containsSub (pyLower (pyStrip p)) "d3" = true
    · rw [if_pos h2] at hp ⊢; exact hp
    · rw [if_neg h2] at hp ⊢
      by_cases h3 : containsSub (pyLower (pyStrip p)) "d4" = true
      · rw [if_pos h3] at hp ⊢; exact hp
      · rw [if_neg h3] at hp; exact Option.noConfusion hp

theorem foldl_methodDispersionUpdate_skip (post : List String) :
    ∀ d : Option String, (∀ p ∈ post, methodDispersionUpdate none p = none) →
      post.foldl methodDispersionUpdate d = d := by
  induction post with
  | nil => intro d _; rfl
  | cons q qs ih =>
    intro d hall
    rw [List.foldl_cons, methodDispersionUpdate_of_none d q (hall q (by simp))]
    exact ih d (fun p hp => hall p (by simp [hp]))

/-- C5, amended, main content: the `%method` dispersion value is
decided by the last line of the block content that matches one of the
substrings, with the per-line priority d3bj, then d3, then d4. -/
theorem c5_amended_last_match_wins (content : String) (pre post : List String)
    (l : String) (v : String)
    (hsplit : pySplitLines content = pre ++ l :: post)
    (hl : methodDispersionUpdate none l = some v)
    (hpost : ∀ p ∈ post, methodDispersionUpdate none p = none) :
    (parse_block_parameters "method" content).dispersion = some v := by
  unfold parse_block_parameters
  rw [if_neg (by decide), if_neg (by decide), if_pos (by decide)]
  dsimp only []
  rw [hsplit, List.foldl_append, List.foldl_cons,
    methodDispersionUpdate_of_some _ l v hl,
    foldl_methodDispersionUpdate_skip post _ hpost]

theorem c5_witness :
    (parse_block_parameters "method" "%method\nd3bj\nend").dispersion = some "D3BJ" :=
  c5_amended_last_match_wins "%method\nd3bj\nend" ["%method"] ["end"] "d3bj" "D3BJ"
    (by decide) (by decide) (by decide)

/-- C5, counterexample: a `%method` block whose raw content contains
`d3bj` (case-insensitively) but whose extracted dispersion is `D3`,
because the later line containing the bare `d3` overwrites the `D3BJ`
set by the earlier line. -/
theorem c5_counterexample :
    ¬ ∀ b : PercentBlock,
      (parse_percent_block ["%method", "  d3bj", "  d3", "end"] 0).1 = some b →
      containsSub (pyLower b.raw_content) "d3bj" = true →
      b.parameters.dispersion = some "D3BJ" ∧ b.parameters.dispersion ≠ some "D3" := by
  intro h
  have hb := h { name := "method", parameters := { dispersion := some "D3" },
                 raw_content := "%method\n  d3bj\n  d3\nend",
                 line_start := 0, line_end := 3 } (by rfl) (by decide)
  exact absurd rfl hb.2

/-! ## Claim C4 -/

/-- Every error the diagnostics pass can append is one of the four
fixed structural messages or an invalid-element finding; in particular
no finding about an unparseable charge or multiplicity token exists. -/
theorem run_diagnostics_errors_shape (r : ParseResult) (e : Finding)
    (he : e ∈ (run_diagnostics r).errors) :
    e ∈ r.errors ∨
      e.message ∈ [missingSimpleInputFinding.message, noMethodFinding.message,
        noBasisFinding.message, missingGeometryFinding.message] ∨
      ∃ a : Atom, e = elemErrFinding a := by
  unfold run_diagnostics at he
  dsimp only [] at he
  rw [List.append_assoc, List.mem_append] at he
  rcases he with he | he
  · exact Or.inl he
  · rw [List.mem_append] at he
    right
    rcases he with he | he
    · cases hsi : r.simple_input with
      | none =>
        rw [hsi] at he
        simp only [List.mem_singleton] at he
        exact Or.inl (by rw [he]; simp)
      | some si =>
        rw [hsi] at he
        rw [List.mem_append] at he
        rcases he with he | he
        · by_cases hm : si.methods.isEmpty = true
          · rw [if_pos hm] at he
            simp only [List.mem_singleton] at he
            exact Or.inl (by rw [he]; simp)
          · rw [if_neg hm] at he
            exact absurd he (List.not_mem_nil e)
        · by_cases hm : si.basis_sets.isEmpty = true
          · rw [if_pos hm] at he
            simp only [List.mem_singleton] at he
            exact Or.inl (by rw [he]; simp)
          · rw [if_neg hm] at he
            exact absurd he (List.not_mem_nil e)
    · cases hg : r.geometry with
      | none =>
        rw [hg] at he
        simp only [List.mem_singleton] at he
        exact Or.inl (by rw [he]; simp)
      | some g =>
        rw [hg] at he
        rw [List.mem_map] at he
        obtain ⟨a, -, ha⟩ := he
        exact Or.inr ⟨a, ha.symm⟩

/-- C4, amended: in a geometry header with at least four tokens, a
failure to parse token 2 as an integer leaves both charge and
multiplicity at their defaults 0 and 1; but when token 2 parses and
token 3 fails, the charge is set from token 2 and only the
multiplicity keeps its default 1.  In both cases no error finding is
produced for the malformed tokens: the diagnostics pass only ever
emits the four fixed structural messages and invalid-element
findings. -/
theorem c4_amended_partial_charge_assignment (ls : List String) (start : Nat) :
    ((pySplitWs (pyStrip (ls.getD start ""))).length ≥ 4 →
      pyInt ((pySplitWs (pyStrip (ls.getD start ""))).getD 2 "") = none →
      ∀ g : Geometry, (parse_geometry ls start).1 = some g →
        g.charge = 0 ∧ g.multiplicity = 1) ∧
    ((pySplitWs (pyStrip (ls.getD start ""))).length ≥ 4 →
      ∀ c : Int, pyInt ((pySplitWs (pyStrip (ls.getD start ""))).getD 2 "") = some c →
      pyInt ((pySplitWs (pyStrip (ls.getD start ""))).getD 3 "") = none →
      ∀ g : Geometry, (parse_geometry ls start).1 = some g →
        g.charge = c ∧ g.multiplicity = 1) ∧
    (∀ (r : ParseResult) (e : Finding), e ∈ (run_diagnostics r).errors →
      e ∈ r.errors ∨
        e.message ∈ [missingSimpleInputFinding.message, noMethodFinding.message,
          noBasisFinding.message, missingGeometryFinding.message] ∨
        ∃ a : Atom, e = elemErrFinding a) := by
  have hcm : ∀ g : Geometry, (parse_geometry ls start).1 = some g →
      g.charge = (geomChargeMult (pySplitWs (pyStrip (ls.getD start "")))).1 ∧
      g.multiplicity = (geomChargeMult (pySplitWs (pyStrip (ls.getD start "")))).2 := by
    intro g hg
    unfold parse_geometry at hg
    dsimp only [] at hg
    by_cases hlen : (pySplitWs (pyStrip (ls.getD start ""))).length < 2
    · rw [if_pos hlen] at hg
      exact Option.noConfusion hg
    · rw [if_neg hlen] at hg
      rcases hca : collectAtoms (List.drop (start + 1) ls) (start + 1) with ⟨atoms, stop, fin⟩
      rw [hca] at hg
      dsimp only [] at hg
      rw [Option.some_inj] at hg
      rw [← hg]
      exact ⟨rfl, rfl⟩
  refine ⟨?_, ?_, run_diagnostics_errors_shape⟩
  · intro h4 hnone g hg
    obtain ⟨h1, h2⟩ := hcm g hg
    unfold geomChargeMult at h1 h2
    rw [if_pos h4, hnone] at h1 h2
    exact ⟨h1, h2⟩
  · intro h4 c hc hnone g hg
    obtain ⟨h1, h2⟩ := hcm g hg
    unfold geomChargeMult at h1 h2
    rw [if_pos h4, hc, hnone] at h1 h2
    exact ⟨h1, h2⟩

/-- C4, counterexample: header `"* xyz 5 abc"` has four tokens and an
unparseable token 3; the claim asserts charge 0 and multiplicity 1,
but the returned geometry carries charge 5. -/
theorem c4_counterexample :
    ¬ ∀ g : Geometry, (parse_geometry ["* xyz 5 abc", "*"] 0).1 = some g →
      g.charge = 0 ∧ g.multiplicity = 1 := by
  intro h
  have hg := h { charge := 5, multiplicity := 1, atoms := [], format_type := "xyz",
                 line_start := 0, line_end := 1 } (by rfl)
  have : (5 : Int) = 0 := hg.1
  exact absurd this (by decide)

theorem c4_amended_witness :
    ((0 : Int) = 0 ∧ (1 : Int) = 1) ∧ ((5 : Int) = 5 ∧ (1 : Int) = 1) :=
  ⟨(c4_amended_partial_charge_assignment ["* xyz abc 2", "*"] 0).1 (by decide) (by decide)
      { charge := 0, multiplicity := 1, atoms := [], format_type := "xyz",
        line_start := 0, line_end := 1 } (by rfl),
   (c4_amended_partial_charge_assignment ["* xyz 5 abc", "*"] 0).2.1 (by decide) 5
      (by decide) (by decide)
      { charge := 5, multiplicity := 1, atoms := [], format_type := "xyz",
        line_start := 0, line_end := 1 } (by rfl)⟩

/-! ## Claim C6 -/

/-- C6: whenever `parse` returns a result containing a geometry, the
error list consists of the (always present, since no directive ever
survives the constructor `TypeError`) missing-simple-input finding
followed by exactly one invalid-element finding per atom whose symbol
is not in the 86-element table, in atom order and at the atom's line
number, and no such finding for atoms whose symbol is in the table. -/
theorem c6_invalid_element_findings (content : String) (r : ParseResult) (g : Geometry)
    (h : parse content = Except.ok r) (hg : r.geometry = some g) :
    r.errors = missingSimpleInputFinding ::
      (g.atoms.filter (fun a => !atomIsValid a)).map elemErrFinding := by
  obtain ⟨r0, hloop, hr, hsi, herr, hwarn⟩ := parse_ok_elim content r h
  subst hr
  have hg0 : r0.geometry = some g := hg
  unfold run_diagnostics
  dsimp only []
  rw [hsi, hg0, herr]
  rfl

theorem c6_invalid_element_findings_witness :
    ∃ (r : ParseResult) (g : Geometry),
      parse "* xyz 0 1\nXx 0 0 0\nH 0 0 0\n*" = Except.ok r ∧ r.geometry = some g ∧
      r.errors = missingSimpleInputFinding ::
        (g.atoms.filter (fun a => !atomIsValid a)).map elemErrFinding :=
  ⟨_, _, rfl, rfl, c6_invalid_element_findings "* xyz 0 1\nXx 0 0 0\nH 0 0 0\n*" _ _ rfl rfl⟩

/-! ## Claim C8 -/

/-- C8: a result of `parse` carries the missing-maxcore warning exactly
when no parsed settings block is named `maxcore` — the warning list is
`[maxcoreWarningFinding]` in that case and empty otherwise — and the
maxcore finding never appears among the errors. -/
theorem c8_maxcore_warning_iff (content : String) (r : ParseResult)
    (h : parse content = Except.ok r) :
    (r.warnings =
      if r.percent_blocks.any (fun b => b.name == "maxcore") then []
      else [maxcoreWarningFinding]) ∧
    maxcoreWarningFinding ∉ r.errors := by
  obtain ⟨r0, hloop, hr, hsi, herr, hwarn⟩ := parse_ok_elim content r h
  subst hr
  constructor
  · show r0.warnings ++ _ = _
    have hpb : (run_diagnostics r0).percent_blocks = r0.percent_blocks := rfl
    rw [hwarn, List.nil_append, hpb]
  · intro hmem
    rcases run_diagnostics_errors_shape r0 maxcoreWarningFinding hmem with hc | hc | hc
    · rw [herr] at hc
      exact List.not_mem_nil _ hc
    · revert hc
      decide
    · obtain ⟨a, ha⟩ := hc
      have : maxcoreWarningFinding.severity = (elemErrFinding a).severity := by rw [ha]
      exact absurd this (by simp [maxcoreWarningFinding, elemErrFinding])

theorem c8_maxcore_warning_iff_witness :
    ([maxcoreWarningFinding] =
      if (([] : List PercentBlock).any (fun b => b.name == "maxcore")) then []
      else [maxcoreWarningFinding]) ∧
    maxcoreWarningFinding ∉ [missingSimpleInputFinding, missingGeometryFinding] :=
  c8_maxcore_warning_iff ""
    { simple_input := none, percent_blocks := [], geometry := none,
      errors := [missingSimpleInputFinding, missingGeometryFinding],
      warnings := [maxcoreWarningFinding] } (by rfl)

/-! ## Claim C10 -/

theorem getD_drop (ls : List String) (n k : Nat) :
    (ls.drop n).getD k "" = ls.getD (n + k) "" := by
  simp [List.getD_eq_getElem?_getD, List.getElem?_drop]

theorem collectAtoms_no_star (ts : List String) :
    ∀ i0 : Nat, (∀ k, k < ts.length → (pyStrip (ts.getD k "") == "*") = false) →
      (collectAtoms ts i0).2.1 = none ∧ (collectAtoms ts i0).2.2 = i0 + ts.length := by
  induction ts with
  | nil => intro i0 _; exact ⟨rfl, rfl⟩
  | cons l rest ih =>
    intro i0 h
    have h0 : (pyStrip l == "*") = false := h 0 (by simp)
    obtain ⟨ihs, ihf⟩ := ih (i0 + 1) (fun k hk => h (k + 1) (by simpa using hk))
    simp only [collectAtoms]
    rw [if_neg (by rw [h0]; exact Bool.false_ne_true)]
    rcases hca : collectAtoms rest (i0 + 1) with ⟨atoms, stop, fin⟩
    rw [hca] at ihs ihf
    dsimp only [] at ihs ihf ⊢
    by_cases hq : (decide ((pySplitWs (pyStrip l)).length ≥ 4) &&
        pyFloatOk ((pySplitWs (pyStrip l)).getD 1 "") &&
        pyFloatOk ((pySplitWs (pyStrip l)).getD 2 "") &&
        pyFloatOk ((pySplitWs (pyStrip l)).getD 3 "")) = true
    · rw [if_pos hq]
      refine ⟨ihs, ?_⟩
      rw [ihf]
      simp [List.length_cons]
      omega
    · rw [if_neg hq]
      refine ⟨ihs, ?_⟩
      rw [ihf]
      simp [List.length_cons]
      omega

theorem collectAtoms_mem (ts : List String) :
    ∀ (i0 k : Nat), k < ts.length →
      (∀ m, m < ts.length → (pyStrip (ts.getD m "") == "*") = false) →
      (pySplitWs (pyStrip (ts.getD k ""))).length ≥ 4 →
      pyFloatOk ((pySplitWs (pyStrip (ts.getD k ""))).getD 1 "") = true →
      pyFloatOk ((pySplitWs (pyStrip (ts.getD k ""))).getD 2 "") = true →
      pyFloatOk ((pySplitWs (pyStrip (ts.getD k ""))).getD 3 "") = true →
      ({ element := (pySplitWs (pyStrip (ts.getD k ""))).getD 0 "",
         x := (pySplitWs (pyStrip (ts.getD k ""))).getD 1 "",
         y := (pySplitWs (pyStrip (ts.getD k ""))).getD 2 "",
         z := (pySplitWs (pyStrip (ts.getD k ""))).getD 3 "",
         line_number := i0 + k } : Atom) ∈ (collectAtoms ts i0).1 := by
  induction ts with
  | nil => intro i0 k hk; exact absurd hk (by simp)
  | cons l rest ih =>
    intro i0 k hk hnostar h4 hf1 hf2 hf3
    have h0 : (pyStrip l == "*") = false := hnostar 0 (by simp)
    simp only [collectAtoms]
    rw [if_neg (by rw [h0]; exact Bool.false_ne_true)]
    rcases hca : collectAtoms rest (i0 + 1) with ⟨atoms, stop, fin⟩
    dsimp only []
    cases k with
    | zero =>
      have hget : (l :: rest).getD 0 "" = l := rfl
      rw [hget] at h4 hf1 hf2 hf3
      rw [if_pos (by
        simp only [Bool.and_eq_true]
        exact ⟨⟨⟨decide_eq_true h4, hf1⟩, hf2⟩, hf3⟩)]
      rw [Nat.add_zero]
      exact List.mem_cons_self _ _
    | succ m =>
      have hget : (l :: rest).getD (m + 1) "" = rest.getD m "" := rfl
      rw [hget] at h4 hf1 hf2 hf3
      have hmem := ih (i0 + 1) m (by simpa using hk)
        (fun q hq => hnostar (q + 1) (by simpa using hq)) h4 hf1 hf2 hf3
      rw [hca] at hmem
      dsimp only [] at hmem
      have harith : i0 + 1 + m = i0 + (m + 1) := by omega
      rw [harith] at hmem
      by_cases hq : (decide ((pySplitWs (pyStrip l)).length ≥ 4) &&
          pyFloatOk ((pySplitWs (pyStrip l)).getD 1 "") &&
          pyFloatOk ((pySplitWs (pyStrip l)).getD 2 "") &&
          pyFloatOk ((pySplitWs (pyStrip l)).getD 3 "")) = true
      · rw [if_pos hq]
        exact List.mem_cons_of_mem _ hmem
      · rw [if_neg hq]
        exact hmem

theorem parse_geometry_no_star (ls : List String) (start : Nat)
    (hs : start < ls.length)
    (h2 : (pySplitWs (pyStrip (ls.getD start ""))).length ≥ 2)
    (hnostar : ∀ j, j < ls.length → start + 1 ≤ j →
      (pyStrip (ls.getD j "") == "*") = false) :
    ∃ geom : Geometry, parse_geometry ls start = (some geom, ls.length) ∧
      geom.line_end = 0 ∧
      geom.atoms = (collectAtoms (ls.drop (start + 1)) (start + 1)).1 := by
  have hns : ∀ k, k < (ls.drop (start + 1)).length →
      (pyStrip ((ls.drop (start + 1)).getD k "") == "*") = false := by
    intro k hk
    rw [getD_drop]
    rw [List.length_drop] at hk
    exact hnostar (start + 1 + k) (by omega) (by omega)
  obtain ⟨hstop, hfin⟩ := collectAtoms_no_star (ls.drop (start + 1)) (start + 1) hns
  unfold parse_geometry
  dsimp only []
  rw [if_neg (by omega)]
  rcases hca : collectAtoms (ls.drop (start + 1)) (start + 1) with ⟨atoms, stop, fin⟩
  rw [hca] at hstop hfin
  dsimp only [] at hstop hfin ⊢
  subst hstop
  have hfin' : fin = ls.length := by
    rw [hfin, List.length_drop]; omega
  subst hfin'
  exact ⟨_, rfl, rfl, rfl⟩

/-- C10: when a geometry section opens the document and its
terminating `*` line never appears, every remaining line with at least
four fields and float-parseable coordinate tokens is still recorded as
an atom at its line number, the geometry is stored in the ParseResult,
and the stored `line_end` remains 0 rather than the last document
line. -/
theorem c10_unterminated_geometry (content : String)
    (h0 : pyStartsWith (pyStrip ((pySplitLines content).getD 0 "")) "*" = true)
    (h2 : (pySplitWs (pyStrip ((pySplitLines content).getD 0 ""))).length ≥ 2)
    (hnostar : ∀ j, j < (pySplitLines content).length → 1 ≤ j →
      (pyStrip ((pySplitLines content).getD j "") == "*") = false) :
    ∃ (r : ParseResult) (g : Geometry),
      parse content = Except.ok r ∧ r.geometry = some g ∧ g.line_end = 0 ∧
      ∀ j, j < (pySplitLines content).length → 1 ≤ j →
        (pySplitWs (pyStrip ((pySplitLines content).getD j ""))).length ≥ 4 →
        pyFloatOk ((pySplitWs (pyStrip ((pySplitLines content).getD j ""))).getD 1 "") = true →
        pyFloatOk ((pySplitWs (pyStrip ((pySplitLines content).getD j ""))).getD 2 "") = true →
        pyFloatOk ((pySplitWs (pyStrip ((pySplitLines content).getD j ""))).getD 3 "") = true →
        ({ element := (pySplitWs (pyStrip ((pySplitLines content).getD j ""))).getD 0 "",
           x := (pySplitWs (pyStrip ((pySplitLines content).getD j ""))).getD 1 "",
           y := (pySplitWs (pyStrip ((pySplitLines content).getD j ""))).getD 2 "",
           z := (pySplitWs (pyStrip ((pySplitLines content).getD j ""))).getD 3 "",
           line_number := j } : Atom) ∈ g.atoms := by
  set ls := pySplitLines content with hls
  have hlen : 0 < ls.length := by
    rcases hl : ls.length with _ | n
    · rw [List.length_eq_zero] at hl
      rw [hl] at h0
      exact absurd h0 (by decide)
    · omega
  obtain ⟨geom, hpg, hle, hatoms⟩ :=
    parse_geometry_no_star ls 0 hlen h2 (fun j hj hj1 => hnostar j hj hj1)
  have e1 : (pyStrip (ls.getD 0 "") == "") = false := pyStartsWith_ne_empty h0
  have e2 : pyStartsWith (pyStrip (ls.getD 0 "")) "#" = false :=
    pyStartsWith_excl (c := '*') (d := '#') (by decide) h0
  have e3 : pyStartsWith (pyStrip (ls.getD 0 "")) "!" = false :=
    pyStartsWith_excl (c := '*') (d := '!') (by decide) h0
  have e4 : pyStartsWith (pyStrip (ls.getD 0 "")) "%" = false :=
    pyStartsWith_excl (c := '*') (d := '%') (by decide) h0
  have hstep : parseLoop ls (ls.length + 1) 0 {} = Except.ok
      { simple_input := none, percent_blocks := [], geometry := some geom,
        errors := [], warnings := [] } := by
    simp only [parseLoop]
    rw [if_pos hlen]
    rw [if_neg (by simp only [e1, e2, Bool.or_false]; exact Bool.false_ne_true)]
    rw [if_neg (by rw [e3]; exact Bool.false_ne_true)]
    rw [if_neg (by rw [e4]; exact Bool.false_ne_true)]
    rw [if_pos h0, hpg]
    dsimp only []
    rw [Nat.max_eq_left (by omega)]
    exact parseLoop_done ls ls.length (ls.length + 1) _ (by omega)
  have hp : parse content = Except.ok (run_diagnostics
      { simple_input := none, percent_blocks := [], geometry := some geom,
        errors := [], warnings := [] }) := by
    unfold parse
    dsimp only []
    rw [← hls, hstep]
  refine ⟨_, geom, hp, rfl, hle, ?_⟩
  intro j hj hj1 h4 hf1 hf2 hf3
  have hk : j - 1 < (ls.drop 1).length := by rw [List.length_drop]; omega
  have harith1 : 1 + (j - 1) = j := by omega
  have hget : (ls.drop 1).getD (j - 1) "" = ls.getD j "" := by
    rw [getD_drop, harith1]
  have hnostar' : ∀ m, m < (ls.drop 1).length →
      (pyStrip ((ls.drop 1).getD m "") == "*") = false := by
    intro m hm
    rw [getD_drop]
    rw [List.length_drop] at hm
    exact hnostar (1 + m) (by omega) (by omega)
  have hmem := collectAtoms_mem (ls.drop 1) 1 (j - 1) hk hnostar'
    (by rw [hget]; exact h4) (by rw [hget]; exact hf1)
    (by rw [hget]; exact hf2) (by rw [hget]; exact hf3)
  rw [hget] at hmem
  have harith : 1 + (j - 1) = j := by omega
  rw [harith] at hmem
  rw [hatoms]
  exact hmem

theorem c10_unterminated_geometry_witness :
    ∃ (r : ParseResult) (g : Geometry),
      parse "* xyz 0 1\nH 0.0 0.0 0.0" = Except.ok r ∧ r.geometry = some g ∧
      g.line_end = 0 ∧
      ({ element := "H", x := "0.0", y := "0.0", z := "0.0",
         line_number := 1 } : Atom) ∈ g.atoms := by
  obtain ⟨r, g, hp, hg, hle, hmem⟩ := c10_unterminated_geometry "* xyz 0 1\nH 0.0 0.0 0.0"
    (by decide) (by decide) (by decide)
  exact ⟨r, g, hp, hg, hle, hmem 1 (by decide) (by decide) (by decide)
    (by decide) (by decide) (by decide)⟩
